import Mathlib

/-!
Verification development for `src/extension/generate_icon.py`.

The script procedurally draws a 128x128 RGBA icon with PIL and saves it as
`icon.png`.  We embed the script shallowly:

* the hard-coded colors, sizes and coordinates become Lean constants with the
  source's names;
* the gradient-loop arithmetic (Python `int(...)` truncation over exact
  rationals) becomes `pyInt` over `ℚ`;
* the hexagon vertices (floating-point `math.cos`/`math.sin`) are modelled
  exactly over `ℝ`;
* each PIL drawing primitive becomes an `Op`: a pixel-coverage predicate
  together with the RGBA value it stores.  `ImageDraw` on an RGBA image
  *replaces* pixel values (it does not alpha-blend), so painting is
  "last covering op wins", captured by the relation `runFrom`;
* the module-level `try`/`except ImportError` wrapper becomes `main` over a
  flag telling whether the imaging library is importable.

Coverage of the primitives themselves (PIL internals, not part of the
repository) is modelled geometrically: a filled ellipse over the box
`[cx-r, cy-r, cx+r, cy+r]` covers the integer points of the closed disc, a
rectangle covers its closed box, a width-`2w` line covers the points within
distance `w` of the segment, a filled convex polygon covers the points on the
inner side of every edge, and a polygon outline additionally stays within
half its width of some edge.
-/

namespace GenerateIcon

/-- An RGBA pixel value `(r, g, b, a)`, components in `0..255`. -/
abbrev RGBA := ℤ × ℤ × ℤ × ℤ

/-- An RGB color tuple, as the script's named constants. -/
abbrev RGB := ℤ × ℤ × ℤ

/-- `size = 128` (line 12). -/
def size : ℕ := 128

/-- `center = size // 2` (line 23). -/
def center : ℤ := (size : ℤ) / 2

/-- `radius = 58` (line 24). -/
def radius : ℤ := 58

/-- `azure_blue = (0, 120, 212)` (line 17). -/
def azure_blue : RGB := (0, 120, 212)

/-- `azure_dark = (0, 90, 158)` (line 18). -/
def azure_dark : RGB := (0, 90, 158)

/-- `white = (255, 255, 255)` (line 19). -/
def white : RGB := (255, 255, 255)

/-- `vscode_blue = (0, 122, 204)` (line 20). -/
def vscode_blue : RGB := (0, 122, 204)

/-- Python `int(...)` applied to an exact rational value: truncation toward
zero.  (The script computes these expressions in floating point; for the
operands appearing here the float results round to the exact values, so the
rational model is faithful.) -/
def pyInt (q : ℚ) : ℤ := if 0 ≤ q then ⌊q⌋ else -⌊-q⌋

/-- One component of the gradient fill color (line 29):
`int(b + (d - b) * (1 - i/radius))` where `b`/`d` are the corresponding
components of `azure_blue`/`azure_dark`. -/
def interp (b d : ℤ) (i : ℕ) : ℤ :=
  pyInt ((b : ℚ) + ((d : ℚ) - (b : ℚ)) * (1 - (i : ℚ) / (radius : ℚ)))

/-- The gradient fill color for ring `i` (line 29), componentwise `interp`. -/
def gradColor (i : ℕ) : RGB :=
  (interp azure_blue.1 azure_dark.1 i,
   interp azure_blue.2.1 azure_dark.2.1 i,
   interp azure_blue.2.2 azure_dark.2.2 i)

/-- `alpha = int(255 * (i / radius))` (line 28). -/
def gradAlpha (i : ℕ) : ℤ := pyInt (255 * ((i : ℚ) / (radius : ℚ)))

/-- The loop indices of `for i in range(radius, 0, -1)` (line 27), in
iteration order: `58, 57, ..., 1`. -/
def gradRadii : List ℕ := (List.range 58).map (fun k => 58 - k)

/-- Coverage of a filled ellipse drawn on the box
`[cx - r, cy - r, cx + r, cy + r]`: the closed disc of radius `r`. -/
def inDisc (cx cy r x y : ℤ) : Prop := (x - cx) ^ 2 + (y - cy) ^ 2 ≤ r ^ 2

/-- Coverage of a filled rectangle on the box `[x0, y0, x1, y1]`
(PIL includes both corners). -/
def inRect (x0 y0 x1 y1 x y : ℤ) : Prop := x0 ≤ x ∧ x ≤ x1 ∧ y0 ≤ y ∧ y ≤ y1

/-- Coverage of a thick line from `a` to `b` of half-width `w`: the points
within distance `w` of the segment. -/
def nearSegW (a b : ℝ × ℝ) (w : ℝ) (x y : ℤ) : Prop :=
  ∃ t : ℝ, 0 ≤ t ∧ t ≤ 1 ∧
    ((x : ℝ) - (a.1 + t * (b.1 - a.1))) ^ 2 +
      ((y : ℝ) - (a.2 + t * (b.2 - a.2))) ^ 2 ≤ w ^ 2

/-- `hex_center_x = center` (line 39). -/
noncomputable def hex_center_x : ℝ := (center : ℝ)

/-- `hex_center_y = center - 5` (line 39). -/
noncomputable def hex_center_y : ℝ := (center : ℝ) - 5

/-- `hex_radius = 25` (line 40). -/
noncomputable def hex_radius : ℝ := 25

/-- Vertex `i` of the hexagon (lines 41-45): `angle = i * pi / 3`,
`x = hex_center_x + hex_radius * cos(angle - pi/2)`,
`y = hex_center_y + hex_radius * sin(angle - pi/2)`. -/
noncomputable def hexPoint (i : ℕ) : ℝ × ℝ :=
  (hex_center_x + hex_radius * Real.cos ((i : ℝ) * Real.pi / 3 - Real.pi / 2),
   hex_center_y + hex_radius * Real.sin ((i : ℝ) * Real.pi / 3 - Real.pi / 2))

/-- `hex_points`: the list of the 6 vertices, in construction order. -/
noncomputable def hex_points : List (ℝ × ℝ) := (List.range 6).map hexPoint

/-- Planar cross product `(b - a) x (p - a)`, used for the half-plane test. -/
noncomputable def crossP (a b p : ℝ × ℝ) : ℝ :=
  (b.1 - a.1) * (p.2 - a.2) - (b.2 - a.2) * (p.1 - a.1)

/-- Coverage of the filled convex hexagon: the pixel lies on the inner side
of every (cyclically consecutive) edge.  With the vertex order produced by
the script the interior has nonnegative cross products. -/
def inHex (x y : ℤ) : Prop :=
  ∀ i : ℕ, i < 6 →
    0 ≤ crossP (hexPoint i) (hexPoint ((i + 1) % 6)) ((x : ℝ), (y : ℝ))

/-- Within half the 1-pixel outline width of some hexagon edge. -/
def nearHexEdge (x y : ℤ) : Prop :=
  ∃ i : ℕ, i < 6 ∧ nearSegW (hexPoint i) (hexPoint ((i + 1) % 6)) (1 / 2) x y

/-- A drawing primitive: which pixels it covers and the RGBA value it writes
(PIL `ImageDraw` on an RGBA image overwrites, it does not blend). -/
structure Op where
  covers : ℤ → ℤ → Prop
  color : RGBA

/-- An RGB fill together with an explicit alpha, as in `color + (alpha,)`. -/
def withAlpha (c : RGB) (a : ℤ) : RGBA := (c.1, c.2.1, c.2.2, a)

/-- An RGB fill on an RGBA image: PIL completes the missing alpha to 255. -/
def solid (c : RGB) : RGBA := withAlpha c 255

/-- One iteration of the gradient loop (lines 27-31): a filled circle of
radius `i` at the canvas center, color `gradColor i` with alpha
`gradAlpha i`. -/
def circleOp (i : ℕ) : Op :=
  { covers := fun x y => inDisc center center (i : ℤ) x y,
    color := withAlpha (gradColor i) (gradAlpha i) }

/-- The gradient loop, in iteration order (outermost circle first). -/
def gradOps : List Op := gradRadii.map circleOp

/-- The border (lines 34-35): a width-2 circular outline at `radius`,
modelled as the annulus between `radius - 2` and `radius`. -/
def borderOp : Op :=
  { covers := fun x y =>
      (radius - 2) ^ 2 ≤ (x - center) ^ 2 + (y - center) ^ 2 ∧
        (x - center) ^ 2 + (y - center) ^ 2 ≤ radius ^ 2,
    color := solid azure_dark }

/-- The hexagon fill (line 47): `draw.polygon(hex_points, fill=white, ...)`. -/
def hexFillOp : Op := { covers := fun x y => inHex x y, color := solid white }

/-- The hexagon outline (line 47): width-1 `azure_blue` outline, drawn by PIL
after the fill; it stays inside the hexagon near its edges. -/
def hexOutlineOp : Op :=
  { covers := fun x y => inHex x y ∧ nearHexEdge x y, color := solid azure_blue }

/-- `line_y_start = center - 20` (line 50). -/
def line_y_start : ℤ := center - 20

/-- The three work-item bars (lines 51-53), as `[x0, y0, x1, y1]` boxes. -/
def barRects : List (ℤ × ℤ × ℤ × ℤ) :=
  [(center - 16, line_y_start, center + 16, line_y_start + 2),
   (center - 16, line_y_start + 6, center + 8, line_y_start + 8),
   (center - 16, line_y_start + 12, center + 12, line_y_start + 14)]

/-- A filled rectangle primitive. -/
def rectOp (c : RGB) (r : ℤ × ℤ × ℤ × ℤ) : Op :=
  { covers := fun x y => inRect r.1 r.2.1 r.2.2.1 r.2.2.2 x y, color := solid c }

/-- The three bars as drawing ops, filled `azure_blue`. -/
def barOps : List Op := barRects.map (rectOp azure_blue)

/-- `dot_y = center + 5` (line 56). -/
def dot_y : ℤ := center + 5

/-- The three sprint dots (lines 57-58): radius-2 discs at offsets
`-8, 0, 8` from the center, filled `azure_blue`. -/
def dotOps : List Op :=
  ([-8, 0, 8] : List ℤ).map (fun off =>
    { covers := fun x y => inDisc (center + off) dot_y 2 x y,
      color := solid azure_blue })

/-- `chart_points` (lines 61-67). -/
def chart_points : List (ℤ × ℤ) :=
  [(center - 12, center + 18), (center - 6, center + 15),
   (center, center + 20), (center + 6, center + 12),
   (center + 12, center + 16)]

/-- Lift an integer point to the real plane. -/
noncomputable def toR (p : ℤ × ℤ) : ℝ × ℝ := ((p.1 : ℝ), (p.2 : ℝ))

/-- One chart segment (line 69): a width-2 line, so half-width 1. -/
def lineOp (p q : ℤ × ℤ) : Op :=
  { covers := fun x y => nearSegW (toR p) (toR q) 1 x y,
    color := solid azure_blue }

/-- The chart polyline (lines 68-69): consecutive pairs of `chart_points`. -/
def chartOps : List Op :=
  (chart_points.zip chart_points.tail).map (fun pq => lineOp pq.1 pq.2)

/-- `badge_size = 8` (line 72). -/
def badge_size : ℤ := 8

/-- `badge_x = center + 25` (line 73). -/
def badge_x : ℤ := center + 25

/-- `badge_y = center + 25` (line 74). -/
def badge_y : ℤ := center + 25

/-- The VS Code badge (lines 75-78): outer `vscode_blue` square, then a
1px-inset `white` square. -/
def badgeOps : List Op :=
  [rectOp vscode_blue (badge_x, badge_y, badge_x + badge_size, badge_y + badge_size),
   rectOp white (badge_x + 1, badge_y + 1,
     badge_x + badge_size - 1, badge_y + badge_size - 1)]

/-- All drawing primitives of `create_icon`, in source order. -/
def drawOps : List Op :=
  gradOps ++ borderOp :: hexFillOp :: hexOutlineOp ::
    (barOps ++ (dotOps ++ (chartOps ++ badgeOps)))

/-- The fresh canvas (line 13): `Image.new('RGBA', (size, size), (0,0,0,0))`
is fully transparent at every pixel. -/
def newImage : ℤ → ℤ → RGBA := fun _ _ => (0, 0, 0, 0)

/-- `Image.new` mode string (line 13). -/
def imageMode : String := "RGBA"

/-- `Image.new` dimensions (line 13). -/
def imageSize : ℕ × ℕ := (size, size)

/-- `runFrom cur ops x y c`: starting from pixel value `cur`, executing the
ops in order leaves pixel `(x, y)` with value `c`.  A covering op replaces
the current value by its color; other pixels are untouched. -/
def runFrom : RGBA → List Op → ℤ → ℤ → RGBA → Prop
  | cur, [], _, _, c => c = cur
  | cur, op :: rest, x, y, c =>
      (op.covers x y ∧ runFrom op.color rest x y c) ∨
        (¬ op.covers x y ∧ runFrom cur rest x y c)

/-- The pixel `(x, y)` of the image returned by `create_icon` has value `c`. -/
def renderedAs (x y : ℤ) (c : RGBA) : Prop :=
  runFrom (newImage x y) drawOps x y c

/-- Observable result of one run of the script: files written (name, format)
and console lines printed. -/
structure RunResult where
  files : List (String × String)
  console : List String

/-- The success path (lines 82-87): save `icon.png` as PNG, print three
status lines. -/
def successRun : RunResult :=
  { files := [("icon.png", "PNG")],
    console := ["✅ Icon generated successfully: icon.png",
                "📏 Size: 128x128 pixels",
                "🎨 Format: PNG with transparency"] }

/-- The `except ImportError` path (lines 89-91): write nothing, print the
missing-dependency message and the fallback suggestion. -/
def importErrorRun : RunResult :=
  { files := [],
    console := ["❌ PIL (Pillow) not installed. Install with: pip install Pillow",
                "📝 Alternative: Open create-icon.html in a browser and click 'Download Icon'"] }

/-- The module-level `try`/`except ImportError` (lines 6, 89-91), as a
function of whether the imaging library can be imported. -/
def main (pilAvailable : Bool) : RunResult :=
  if pilAvailable then successRun else importErrorRun

/-- Claim-side predicate, written from the spec's words (for comparison with
the code): the color lies componentwise between `azure_blue = (0,120,212)`
and `azure_dark = (0,90,158)`. -/
def inSpecBlueRange (c : RGBA) : Prop :=
  c.1 = 0 ∧ azure_dark.2.1 ≤ c.2.1 ∧ c.2.1 ≤ azure_blue.2.1 ∧
    azure_dark.2.2 ≤ c.2.2.1 ∧ c.2.2.1 ≤ azure_blue.2.2

/-- Claim C1 as stated: every value the center pixel can render to is
strictly positive in alpha, inside the interpolated blue range, and is not
white. -/
def centerBlueClaim : Prop :=
  ∀ c : RGBA, renderedAs 64 64 c →
    0 < c.2.2.2 ∧ inSpecBlueRange c ∧ c ≠ solid white

/-- The widths `x1 - x0` of the three bars, in drawing order. -/
def barWidths : List ℤ := barRects.map (fun r => r.2.2.1 - r.1)

/-- The heights `y1 - y0` of the three bars, in drawing order. -/
def barHeights : List ℤ := barRects.map (fun r => r.2.2.2 - r.2.1)

/-- Every integer coordinate pair passed to a drawing primitive: the corners
of the gradient-circle boxes, of the border box, of the bar boxes, of the
dot boxes and of the badge boxes, plus the chart polyline points. -/
def intDrawCoords : List (ℤ × ℤ) :=
  (gradRadii.flatMap fun i =>
      [(center - (i : ℤ), center - (i : ℤ)), (center + (i : ℤ), center + (i : ℤ))])
    ++ [(center - radius, center - radius), (center + radius, center + radius)]
    ++ (barRects.flatMap fun r => [(r.1, r.2.1), (r.2.2.1, r.2.2.2)])
    ++ (([-8, 0, 8] : List ℤ).flatMap fun off =>
      [(center + off - 2, dot_y - 2), (center + off + 2, dot_y + 2)])
    ++ chart_points
    ++ [(badge_x, badge_y), (badge_x + badge_size, badge_y + badge_size),
        (badge_x + 1, badge_y + 1),
        (badge_x + badge_size - 1, badge_y + badge_size - 1)]

/-- Every coordinate pair passed to any drawing primitive, including the six
real-valued hexagon vertices. -/
noncomputable def allCoords : List (ℝ × ℝ) := intDrawCoords.map toR ++ hex_points

theorem center_eq : center = 64 := by decide

theorem sqrt3_nonneg : (0 : ℝ) ≤ Real.sqrt 3 := Real.sqrt_nonneg 3

theorem sqrt3_sq : Real.sqrt 3 ^ 2 = 3 :=
  Real.sq_sqrt (by norm_num)

theorem sqrt3_lt_two : Real.sqrt 3 < 2 := by
  nlinarith [sqrt3_sq, sqrt3_nonneg]

theorem one_le_sqrt3 : (1 : ℝ) ≤ Real.sqrt 3 := by
  nlinarith [sqrt3_sq, sqrt3_nonneg]

theorem hex_center_x_eq : hex_center_x = 64 := by
  rw [hex_center_x, center_eq]; norm_num

theorem hex_center_y_eq : hex_center_y = 59 := by
  rw [hex_center_y, center_eq]; norm_num

theorem hexPoint_0 : hexPoint 0 = ((64 : ℝ), (34 : ℝ)) := by
  have h : ((0 : ℕ) : ℝ) * Real.pi / 3 - Real.pi / 2 = -(Real.pi / 2) := by
    push_cast; ring
  rw [hexPoint, h, Real.cos_neg, Real.sin_neg, Real.cos_pi_div_two,
    Real.sin_pi_div_two, hex_center_x_eq, hex_center_y_eq, hex_radius]
  norm_num

theorem hexPoint_1 : hexPoint 1 = (64 + 25 * Real.sqrt 3 / 2, (93 : ℝ) / 2) := by
  have h : ((1 : ℕ) : ℝ) * Real.pi / 3 - Real.pi / 2 = -(Real.pi / 6) := by
    push_cast; ring
  rw [hexPoint, h, Real.cos_neg, Real.sin_neg, Real.cos_pi_div_six,
    Real.sin_pi_div_six, hex_center_x_eq, hex_center_y_eq, hex_radius]
  simp only [Prod.mk.injEq]
  constructor <;> ring

theorem hexPoint_2 : hexPoint 2 = (64 + 25 * Real.sqrt 3 / 2, (143 : ℝ) / 2) := by
  have h : ((2 : ℕ) : ℝ) * Real.pi / 3 - Real.pi / 2 = Real.pi / 6 := by
    push_cast; ring
  rw [hexPoint, h, Real.cos_pi_div_six, Real.sin_pi_div_six,
    hex_center_x_eq, hex_center_y_eq, hex_radius]
  simp only [Prod.mk.injEq]
  constructor <;> ring

theorem hexPoint_3 : hexPoint 3 = ((64 : ℝ), (84 : ℝ)) := by
  have h : ((3 : ℕ) : ℝ) * Real.pi / 3 - Real.pi / 2 = Real.pi / 2 := by
    push_cast; ring
  rw [hexPoint, h, Real.cos_pi_div_two, Real.sin_pi_div_two,
    hex_center_x_eq, hex_center_y_eq, hex_radius]
  norm_num

theorem hexPoint_4 : hexPoint 4 = (64 - 25 * Real.sqrt 3 / 2, (143 : ℝ) / 2) := by
  have h : ((4 : ℕ) : ℝ) * Real.pi / 3 - Real.pi / 2 = Real.pi - Real.pi / 6 := by
    push_cast; ring
  rw [hexPoint, h, Real.cos_pi_sub, Real.sin_pi_sub, Real.cos_pi_div_six,
    Real.sin_pi_div_six, hex_center_x_eq, hex_center_y_eq, hex_radius]
  simp only [Prod.mk.injEq]
  constructor <;> ring

theorem hexPoint_5 : hexPoint 5 = (64 - 25 * Real.sqrt 3 / 2, (93 : ℝ) / 2) := by
  have h : ((5 : ℕ) : ℝ) * Real.pi / 3 - Real.pi / 2 = Real.pi + Real.pi / 6 := by
    push_cast; ring
  rw [hexPoint, h, Real.cos_add, Real.sin_add, Real.cos_pi, Real.sin_pi,
    Real.cos_pi_div_six, Real.sin_pi_div_six, hex_center_x_eq,
    hex_center_y_eq, hex_radius]
  simp only [Prod.mk.injEq]
  constructor <;> ring

theorem runFrom_total (cur : RGBA) (l : List Op) (x y : ℤ) :
    ∃ c, runFrom cur l x y c := by
  induction l generalizing cur with
  | nil => exact ⟨cur, rfl⟩
  | cons op rest ih =>
      by_cases h : op.covers x y
      · obtain ⟨c, hc⟩ := ih op.color
        exact ⟨c, Or.inl ⟨h, hc⟩⟩
      · obtain ⟨c, hc⟩ := ih cur
        exact ⟨c, Or.inr ⟨h, hc⟩⟩

theorem runFrom_unique {cur : RGBA} {l : List Op} {x y : ℤ} {c c' : RGBA}
    (h : runFrom cur l x y c) (h' : runFrom cur l x y c') : c = c' := by
  induction l generalizing cur with
  | nil => rw [show c = cur from h, show c' = cur from h']
  | cons op rest ih =>
      rcases h with ⟨hc, h⟩ | ⟨hc, h⟩ <;> rcases h' with ⟨hc', h'⟩ | ⟨hc', h'⟩
      · exact ih h h'
      · exact absurd hc hc'
      · exact absurd hc' hc
      · exact ih h h'

theorem runFrom_of_not_covers {l : List Op} {x y : ℤ}
    (h : ∀ op ∈ l, ¬ op.covers x y) (cur : RGBA) : runFrom cur l x y cur := by
  induction l with
  | nil => rfl
  | cons op rest ih =>
      exact Or.inr ⟨h op (List.mem_cons_self op rest),
        ih fun o ho => h o (List.mem_cons_of_mem op ho)⟩

theorem runFrom_append {cur : RGBA} {l₁ l₂ : List Op} {x y : ℤ} {c : RGBA} :
    runFrom cur (l₁ ++ l₂) x y c ↔
      ∃ m, runFrom cur l₁ x y m ∧ runFrom m l₂ x y c := by
  induction l₁ generalizing cur with
  | nil =>
      constructor
      · exact fun h => ⟨cur, rfl, h⟩
      · rintro ⟨m, hm, h⟩
        rw [show m = cur from hm] at h
        exact h
  | cons op rest ih =>
      constructor
      · rintro (⟨hc, h⟩ | ⟨hc, h⟩)
        · obtain ⟨m, h1, h2⟩ := ih.1 h
          exact ⟨m, Or.inl ⟨hc, h1⟩, h2⟩
        · obtain ⟨m, h1, h2⟩ := ih.1 h
          exact ⟨m, Or.inr ⟨hc, h1⟩, h2⟩
      · rintro ⟨m, ⟨hc, h1⟩ | ⟨hc, h1⟩, h2⟩
        · exact Or.inl ⟨hc, ih.2 ⟨m, h1, h2⟩⟩
        · exact Or.inr ⟨hc, ih.2 ⟨m, h1, h2⟩⟩

theorem runFrom_snoc_covers {cur : RGBA} {l : List Op} {x y : ℤ} {c : RGBA}
    {op : Op} (h : runFrom cur l x y c) (hc : op.covers x y) :
    runFrom cur (l ++ [op]) x y op.color :=
  runFrom_append.2 ⟨c, h, Or.inl ⟨hc, rfl⟩⟩

theorem pyInt_eq_floor {q : ℚ} (h : 0 ≤ q) : pyInt q = ⌊q⌋ := if_pos h

theorem gradAlpha_mono {i j : ℕ} (h : i ≤ j) : gradAlpha i ≤ gradAlpha j := by
  have hij : (i : ℚ) ≤ (j : ℚ) := by exact_mod_cast h
  have hr : (0 : ℚ) < (radius : ℚ) := by norm_num [radius]
  have h1 : (0 : ℚ) ≤ 255 * ((i : ℚ) / (radius : ℚ)) := by positivity
  have h2 : (0 : ℚ) ≤ 255 * ((j : ℚ) / (radius : ℚ)) := by positivity
  rw [gradAlpha, gradAlpha, pyInt_eq_floor h1, pyInt_eq_floor h2]
  apply Int.floor_le_floor
  have hr58 : (radius : ℚ) = 58 := by norm_num [radius]
  rw [hr58]
  linarith

theorem not_nearSegW_y_lt {a b : ℝ × ℝ} {w : ℝ} {x y : ℤ} (hw : 0 ≤ w)
    (h1 : (y : ℝ) + w < a.2) (h2 : (y : ℝ) + w < b.2) :
    ¬ nearSegW a b w x y := by
  rintro ⟨t, ht0, ht1, hd⟩
  have hq : (y : ℝ) + w < a.2 + t * (b.2 - a.2) := by
    rcases le_total a.2 b.2 with hab | hab
    · nlinarith [mul_nonneg ht0 (sub_nonneg.2 hab)]
    · nlinarith [mul_nonneg (sub_nonneg.2 ht1) (sub_nonneg.2 hab)]
  have h3 : (0 : ℝ) < a.2 + t * (b.2 - a.2) - (y : ℝ) - w := by linarith
  have h4 : (0 : ℝ) < a.2 + t * (b.2 - a.2) - (y : ℝ) + w := by linarith
  nlinarith [mul_pos h3 h4, sq_nonneg ((x : ℝ) - (a.1 + t * (b.1 - a.1)))]

theorem not_nearSegW_y_gt {a b : ℝ × ℝ} {w : ℝ} {x y : ℤ} (hw : 0 ≤ w)
    (h1 : a.2 + w < (y : ℝ)) (h2 : b.2 + w < (y : ℝ)) :
    ¬ nearSegW a b w x y := by
  rintro ⟨t, ht0, ht1, hd⟩
  have hq : a.2 + t * (b.2 - a.2) + w < (y : ℝ) := by
    rcases le_total a.2 b.2 with hab | hab
    · nlinarith [mul_nonneg (sub_nonneg.2 ht1) (sub_nonneg.2 hab)]
    · nlinarith [mul_nonneg ht0 (sub_nonneg.2 hab)]
  have h3 : (0 : ℝ) < (y : ℝ) - (a.2 + t * (b.2 - a.2)) - w := by linarith
  have h4 : (0 : ℝ) < (y : ℝ) - (a.2 + t * (b.2 - a.2)) + w := by linarith
  nlinarith [mul_pos h3 h4, sq_nonneg ((x : ℝ) - (a.1 + t * (b.1 - a.1)))]

theorem not_nearSegW_x_lt {a b : ℝ × ℝ} {w : ℝ} {x y : ℤ} (hw : 0 ≤ w)
    (h1 : (x : ℝ) + w < a.1) (h2 : (x : ℝ) + w < b.1) :
    ¬ nearSegW a b w x y := by
  rintro ⟨t, ht0, ht1, hd⟩
  have hq : (x : ℝ) + w < a.1 + t * (b.1 - a.1) := by
    rcases le_total a.1 b.1 with hab | hab
    · nlinarith [mul_nonneg ht0 (sub_nonneg.2 hab)]
    · nlinarith [mul_nonneg (sub_nonneg.2 ht1) (sub_nonneg.2 hab)]
  have h3 : (0 : ℝ) < a.1 + t * (b.1 - a.1) - (x : ℝ) - w := by linarith
  have h4 : (0 : ℝ) < a.1 + t * (b.1 - a.1) - (x : ℝ) + w := by linarith
  nlinarith [mul_pos h3 h4, sq_nonneg ((y : ℝ) - (a.2 + t * (b.2 - a.2)))]

theorem not_nearSegW_x_gt {a b : ℝ × ℝ} {w : ℝ} {x y : ℤ} (hw : 0 ≤ w)
    (h1 : a.1 + w < (x : ℝ)) (h2 : b.1 + w < (x : ℝ)) :
    ¬ nearSegW a b w x y := by
  rintro ⟨t, ht0, ht1, hd⟩
  have hq : a.1 + t * (b.1 - a.1) + w < (x : ℝ) := by
    rcases le_total a.1 b.1 with hab | hab
    · nlinarith [mul_nonneg (sub_nonneg.2 ht1) (sub_nonneg.2 hab)]
    · nlinarith [mul_nonneg ht0 (sub_nonneg.2 hab)]
  have h3 : (0 : ℝ) < (x : ℝ) - (a.1 + t * (b.1 - a.1)) - w := by linarith
  have h4 : (0 : ℝ) < (x : ℝ) - (a.1 + t * (b.1 - a.1)) + w := by linarith
  nlinarith [mul_pos h3 h4, sq_nonneg ((y : ℝ) - (a.2 + t * (b.2 - a.2)))]

theorem line_y_start_eq : line_y_start = 44 := by
  rw [line_y_start, center_eq]; decide

theorem dot_y_eq : dot_y = 69 := by
  rw [dot_y, center_eq]; decide

theorem badge_x_eq : badge_x = 89 := by
  rw [badge_x, center_eq]; decide

theorem badge_y_eq : badge_y = 89 := by
  rw [badge_y, center_eq]; decide

theorem inHex_center : inHex 64 64 := by
  intro i hi
  interval_cases i
  · rw [show ((0 : ℕ) + 1) % 6 = 1 from rfl, hexPoint_0, hexPoint_1]
    simp only [crossP]
    push_cast
    nlinarith [sqrt3_nonneg]
  · rw [show ((1 : ℕ) + 1) % 6 = 2 from rfl, hexPoint_1, hexPoint_2]
    simp only [crossP]
    push_cast
    nlinarith [sqrt3_nonneg]
  · rw [show ((2 : ℕ) + 1) % 6 = 3 from rfl, hexPoint_2, hexPoint_3]
    simp only [crossP]
    push_cast
    nlinarith [sqrt3_nonneg]
  · rw [show ((3 : ℕ) + 1) % 6 = 4 from rfl, hexPoint_3, hexPoint_4]
    simp only [crossP]
    push_cast
    nlinarith [sqrt3_nonneg]
  · rw [show ((4 : ℕ) + 1) % 6 = 5 from rfl, hexPoint_4, hexPoint_5]
    simp only [crossP]
    push_cast
    nlinarith [sqrt3_nonneg]
  · rw [show ((5 : ℕ) + 1) % 6 = 0 from rfl, hexPoint_5, hexPoint_0]
    simp only [crossP]
    push_cast
    nlinarith [sqrt3_nonneg]

theorem not_inHex_x_le {x y : ℤ} (hx : x ≤ 39) : ¬ inHex x y := by
  intro h
  have h4 := h 4 (by norm_num)
  rw [show ((4 : ℕ) + 1) % 6 = 5 from rfl, hexPoint_4, hexPoint_5] at h4
  simp only [crossP] at h4
  have hxr : (x : ℝ) ≤ 39 := by exact_mod_cast hx
  nlinarith [sqrt3_lt_two, sqrt3_nonneg]

theorem not_inHex_x_ge {x y : ℤ} (hx : 89 ≤ x) : ¬ inHex x y := by
  intro h
  have h1 := h 1 (by norm_num)
  rw [show ((1 : ℕ) + 1) % 6 = 2 from rfl, hexPoint_1, hexPoint_2] at h1
  simp only [crossP] at h1
  have hxr : (89 : ℝ) ≤ (x : ℝ) := by exact_mod_cast hx
  nlinarith [sqrt3_lt_two, sqrt3_nonneg]

theorem not_nearHexEdge_center : ¬ nearHexEdge 64 64 := by
  rintro ⟨i, hi, hseg⟩
  interval_cases i
  · rw [show ((0 : ℕ) + 1) % 6 = 1 from rfl, hexPoint_0, hexPoint_1] at hseg
    exact not_nearSegW_y_gt (by norm_num) (by norm_num) (by norm_num) hseg
  · rw [show ((1 : ℕ) + 1) % 6 = 2 from rfl, hexPoint_1, hexPoint_2] at hseg
    refine not_nearSegW_x_lt (by norm_num) ?_ ?_ hseg <;>
      · show _ < 64 + 25 * Real.sqrt 3 / 2
        push_cast
        nlinarith [one_le_sqrt3]
  · rw [show ((2 : ℕ) + 1) % 6 = 3 from rfl, hexPoint_2, hexPoint_3] at hseg
    exact not_nearSegW_y_lt (by norm_num) (by norm_num) (by norm_num) hseg
  · rw [show ((3 : ℕ) + 1) % 6 = 4 from rfl, hexPoint_3, hexPoint_4] at hseg
    exact not_nearSegW_y_lt (by norm_num) (by norm_num) (by norm_num) hseg
  · rw [show ((4 : ℕ) + 1) % 6 = 5 from rfl, hexPoint_4, hexPoint_5] at hseg
    refine not_nearSegW_x_gt (by norm_num) ?_ ?_ hseg <;>
      · show 64 - 25 * Real.sqrt 3 / 2 + 1 / 2 < _
        push_cast
        nlinarith [one_le_sqrt3]
  · rw [show ((5 : ℕ) + 1) % 6 = 0 from rfl, hexPoint_5, hexPoint_0] at hseg
    exact not_nearSegW_y_gt (by norm_num) (by norm_num) (by norm_num) hseg

theorem hexFillOp_miss_left {x y : ℤ} (hx : x ≤ 39) : ¬ hexFillOp.covers x y :=
  not_inHex_x_le hx

theorem hexFillOp_miss_right {x y : ℤ} (hx : 89 ≤ x) : ¬ hexFillOp.covers x y :=
  not_inHex_x_ge hx

theorem hexOutlineOp_miss_center : ¬ hexOutlineOp.covers 64 64 :=
  fun h => not_nearHexEdge_center h.2

theorem inDisc_miss {cx cy r x y : ℤ} (hr : 0 ≤ r)
    (h : x ≤ cx - r - 1 ∨ cx + r + 1 ≤ x ∨ y ≤ cy - r - 1 ∨ cy + r + 1 ≤ y) :
    ¬ inDisc cx cy r x y := by
  intro hcov
  rw [inDisc] at hcov
  rcases h with h | h | h | h
  · nlinarith [mul_pos (show (0 : ℤ) < cx - x - r by linarith)
      (show (0 : ℤ) < cx - x + r by linarith), sq_nonneg (y - cy)]
  · nlinarith [mul_pos (show (0 : ℤ) < x - cx - r by linarith)
      (show (0 : ℤ) < x - cx + r by linarith), sq_nonneg (y - cy)]
  · nlinarith [mul_pos (show (0 : ℤ) < cy - y - r by linarith)
      (show (0 : ℤ) < cy - y + r by linarith), sq_nonneg (x - cx)]
  · nlinarith [mul_pos (show (0 : ℤ) < y - cy - r by linarith)
      (show (0 : ℤ) < y - cy + r by linarith), sq_nonneg (x - cx)]

theorem mem_gradRadii {i : ℕ} (h : i ∈ gradRadii) : 1 ≤ i ∧ i ≤ 58 := by
  simp only [gradRadii, List.mem_map, List.mem_range] at h
  obtain ⟨k, hk, rfl⟩ := h
  omega

theorem gradOps_miss {x y : ℤ}
    (hfar : 3364 < (x - center) ^ 2 + (y - center) ^ 2) :
    ∀ op ∈ gradOps, ¬ op.covers x y := by
  intro op hop
  simp only [gradOps, List.mem_map] at hop
  obtain ⟨i, hi, rfl⟩ := hop
  obtain ⟨-, hle⟩ := mem_gradRadii hi
  simp only [circleOp, inDisc]
  intro hcov
  have h58 : (i : ℤ) ≤ 58 := by exact_mod_cast hle
  nlinarith [Int.natCast_nonneg i]

theorem border_miss_far {x y : ℤ}
    (hfar : 3364 < (x - center) ^ 2 + (y - center) ^ 2) :
    ¬ borderOp.covers x y := by
  simp only [borderOp, radius]
  rintro ⟨-, h2⟩
  nlinarith

theorem border_miss_center : ¬ borderOp.covers 64 64 := by
  simp only [borderOp, radius, center_eq]
  norm_num

theorem barOps_miss {x y : ℤ} (h : y ≤ 43 ∨ 59 ≤ y ∨ x ≤ 47 ∨ 81 ≤ x) :
    ∀ op ∈ barOps, ¬ op.covers x y := by
  intro op hop
  simp only [barOps, barRects, List.mem_map, List.mem_cons,
    List.not_mem_nil, or_false] at hop
  obtain ⟨r, hr, rfl⟩ := hop
  rcases hr with rfl | rfl | rfl <;>
    · simp only [rectOp, inRect, center_eq, line_y_start_eq]
      omega

theorem dotOps_miss {x y : ℤ} (h : x ≤ 53 ∨ 75 ≤ x ∨ y ≤ 66 ∨ 72 ≤ y) :
    ∀ op ∈ dotOps, ¬ op.covers x y := by
  intro op hop
  simp only [dotOps, List.mem_map, List.mem_cons,
    List.not_mem_nil, or_false] at hop
  obtain ⟨off, hoff, rfl⟩ := hop
  simp only
  apply inDisc_miss (by norm_num)
  rcases hoff with rfl | rfl | rfl <;>
    · rw [center_eq, dot_y_eq]
      omega

theorem chartOps_eq :
    chartOps =
      [lineOp (center - 12, center + 18) (center - 6, center + 15),
       lineOp (center - 6, center + 15) (center, center + 20),
       lineOp (center, center + 20) (center + 6, center + 12),
       lineOp (center + 6, center + 12) (center + 12, center + 16)] := rfl

theorem chartOps_miss {x y : ℤ} (h : y ≤ 74 ∨ 86 ≤ y) :
    ∀ op ∈ chartOps, ¬ op.covers x y := by
  have hyl : y ≤ 74 → ∀ a b : ℝ × ℝ, 76 ≤ a.2 → 76 ≤ b.2 →
      ¬ nearSegW a b 1 x y := by
    intro hy a b ha hb
    have hyr : (y : ℝ) ≤ 74 := by exact_mod_cast hy
    exact not_nearSegW_y_lt (by norm_num) (by linarith) (by linarith)
  have hyg : 86 ≤ y → ∀ a b : ℝ × ℝ, b.2 ≤ 84 → a.2 ≤ 84 →
      ¬ nearSegW a b 1 x y := by
    intro hy a b hb ha
    have hyr : (86 : ℝ) ≤ (y : ℝ) := by exact_mod_cast hy
    exact not_nearSegW_y_gt (by norm_num) (by linarith) (by linarith)
  intro op hop
  rw [chartOps_eq] at hop
  simp only [List.mem_cons, List.not_mem_nil, or_false] at hop
  rcases hop with rfl | rfl | rfl | rfl <;>
    simp only [lineOp, toR] <;>
    rcases h with hy | hy <;>
    first
      | exact hyl hy _ _ (by push_cast [center_eq]; norm_num)
          (by push_cast [center_eq]; norm_num)
      | exact hyg hy _ _ (by push_cast [center_eq]; norm_num)
          (by push_cast [center_eq]; norm_num)

theorem badgeOps_miss {x y : ℤ} (h : x ≤ 88 ∨ 98 ≤ x ∨ y ≤ 88 ∨ 98 ≤ y) :
    ∀ op ∈ badgeOps, ¬ op.covers x y := by
  intro op hop
  simp only [badgeOps, List.mem_cons, List.not_mem_nil, or_false] at hop
  rcases hop with rfl | rfl <;>
    · simp only [rectOp, inRect, badge_x_eq, badge_y_eq, badge_size]
      omega

theorem drawOps_forall_miss {x y : ℤ}
    (hg : ∀ op ∈ gradOps, ¬ op.covers x y)
    (hb : ¬ borderOp.covers x y)
    (hf : ¬ hexFillOp.covers x y)
    (ho : ¬ hexOutlineOp.covers x y)
    (hbar : ∀ op ∈ barOps, ¬ op.covers x y)
    (hdot : ∀ op ∈ dotOps, ¬ op.covers x y)
    (hch : ∀ op ∈ chartOps, ¬ op.covers x y)
    (hbg : ∀ op ∈ badgeOps, ¬ op.covers x y) :
    ∀ op ∈ drawOps, ¬ op.covers x y := by
  intro op hop
  simp only [drawOps, List.mem_append, List.mem_cons] at hop
  rcases hop with h | rfl | rfl | rfl | h | h | h | h
  exacts [hg op h, hb, hf, ho, hbar op h, hdot op h, hch op h, hbg op h]

theorem drawOps_miss_00 : ∀ op ∈ drawOps, ¬ op.covers 0 0 :=
  drawOps_forall_miss
    (gradOps_miss (by rw [center_eq]; norm_num))
    (border_miss_far (by rw [center_eq]; norm_num))
    (hexFillOp_miss_left (by norm_num))
    (fun h => not_inHex_x_le (by norm_num) h.1)
    (barOps_miss (Or.inl (by norm_num)))
    (dotOps_miss (Or.inl (by norm_num)))
    (chartOps_miss (Or.inl (by norm_num)))
    (badgeOps_miss (Or.inl (by norm_num)))

theorem drawOps_miss_0_127 : ∀ op ∈ drawOps, ¬ op.covers 0 127 :=
  drawOps_forall_miss
    (gradOps_miss (by rw [center_eq]; norm_num))
    (border_miss_far (by rw [center_eq]; norm_num))
    (hexFillOp_miss_left (by norm_num))
    (fun h => not_inHex_x_le (by norm_num) h.1)
    (barOps_miss (Or.inr (Or.inl (by norm_num))))
    (dotOps_miss (Or.inl (by norm_num)))
    (chartOps_miss (Or.inr (by norm_num)))
    (badgeOps_miss (Or.inl (by norm_num)))

theorem drawOps_miss_127_0 : ∀ op ∈ drawOps, ¬ op.covers 127 0 :=
  drawOps_forall_miss
    (gradOps_miss (by rw [center_eq]; norm_num))
    (border_miss_far (by rw [center_eq]; norm_num))
    (hexFillOp_miss_right (by norm_num))
    (fun h => not_inHex_x_ge (by norm_num) h.1)
    (barOps_miss (Or.inl (by norm_num)))
    (dotOps_miss (Or.inr (Or.inl (by norm_num))))
    (chartOps_miss (Or.inl (by norm_num)))
    (badgeOps_miss (Or.inr (Or.inr (Or.inl (by norm_num)))))

theorem drawOps_miss_127_127 : ∀ op ∈ drawOps, ¬ op.covers 127 127 :=
  drawOps_forall_miss
    (gradOps_miss (by rw [center_eq]; norm_num))
    (border_miss_far (by rw [center_eq]; norm_num))
    (hexFillOp_miss_right (by norm_num))
    (fun h => not_inHex_x_ge (by norm_num) h.1)
    (barOps_miss (Or.inr (Or.inl (by norm_num))))
    (dotOps_miss (Or.inr (Or.inl (by norm_num))))
    (chartOps_miss (Or.inr (by norm_num)))
    (badgeOps_miss (Or.inr (Or.inl (by norm_num))))

theorem corner_00_transparent : renderedAs 0 0 (0, 0, 0, 0) :=
  runFrom_of_not_covers drawOps_miss_00 _

theorem corner_0_127_transparent : renderedAs 0 127 (0, 0, 0, 0) :=
  runFrom_of_not_covers drawOps_miss_0_127 _

theorem corner_127_0_transparent : renderedAs 127 0 (0, 0, 0, 0) :=
  runFrom_of_not_covers drawOps_miss_127_0 _

theorem corner_127_127_transparent : renderedAs 127 127 (0, 0, 0, 0) :=
  runFrom_of_not_covers drawOps_miss_127_127 _

theorem center_white : renderedAs 64 64 (255, 255, 255, 255) := by
  rw [renderedAs, drawOps]
  have hmiss : ∀ op ∈ barOps ++ (dotOps ++ (chartOps ++ badgeOps)),
      ¬ op.covers 64 64 := by
    intro op hop
    simp only [List.mem_append] at hop
    rcases hop with h | h | h | h
    exacts [barOps_miss (Or.inr (Or.inl (by norm_num))) op h,
      dotOps_miss (Or.inr (Or.inr (Or.inl (by norm_num)))) op h,
      chartOps_miss (Or.inl (by norm_num)) op h,
      badgeOps_miss (Or.inl (by norm_num)) op h]
  obtain ⟨m, hm⟩ := runFrom_total (newImage 64 64) gradOps 64 64
  exact runFrom_append.2 ⟨m, hm,
    Or.inr ⟨border_miss_center,
      Or.inl ⟨inHex_center,
        Or.inr ⟨hexOutlineOp_miss_center,
          runFrom_of_not_covers hmiss _⟩⟩⟩⟩

theorem center_unique {c : RGBA} (h : renderedAs 64 64 c) :
    c = (255, 255, 255, 255) :=
  runFrom_unique h center_white

/-- Claim C1, as stated, is false on the code: the center pixel of the
rendered icon is the white hexagon fill `(255,255,255,255)`, which is not in
the interpolated blue range (and is white). -/
theorem center_blue_claim_refuted : ¬ centerBlueClaim := by
  intro h
  simp only [centerBlueClaim] at h
  have h2 := (h (255, 255, 255, 255) center_white).2.1
  simp only [inSpecBlueRange] at h2
  exact absurd h2.1 (by decide)

/-- Claim C1 (amended): after `create_icon`, the pixel at the canvas center
`(64, 64)` is opaque (alpha exactly 255) but white — the white hexagon fill
covers the center after the gradient disc — and therefore not within the
interpolated range between `azure_blue` and `azure_dark`; the rendered value
there is unique. -/
theorem center_pixel_white :
    renderedAs 64 64 (solid white) ∧ (solid white).2.2.2 = 255 ∧
      ¬ inSpecBlueRange (solid white) ∧
      ∀ c : RGBA, renderedAs 64 64 c → c = solid white := by
  refine ⟨center_white, rfl, ?_, fun c hc => center_unique hc⟩
  simp only [inSpecBlueRange, solid, withAlpha, white]
  decide

/-- Witness for `center_pixel_white` at the concrete color
`(255,255,255,255)`. -/
theorem center_pixel_white_witness : ((255, 255, 255, 255) : RGBA) = solid white :=
  center_pixel_white.2.2.2 (255, 255, 255, 255) center_white

/-- Claim C2: the gradient loop iterates `i = 58, 57, ..., 1`; each
iteration draws a filled circle of radius `i` centered at the canvas center
with the interpolated color `gradColor i` and alpha `gradAlpha i`; the discs
are nested (a smaller-radius circle covers a subset of a larger one); and in
the painting semantics an op drawn later overwrites every earlier op on the
pixels it covers. -/
theorem gradient_loop_structure :
    gradRadii =
      [58, 57, 56, 55, 54, 53, 52, 51, 50, 49, 48, 47, 46, 45, 44, 43, 42,
       41, 40, 39, 38, 37, 36, 35, 34, 33, 32, 31, 30, 29, 28, 27, 26, 25,
       24, 23, 22, 21, 20, 19, 18, 17, 16, 15, 14, 13, 12, 11, 10, 9, 8, 7,
       6, 5, 4, 3, 2, 1] ∧
    gradOps = gradRadii.map circleOp ∧
    (∀ i : ℕ, circleOp i =
      { covers := fun x y => inDisc center center (i : ℤ) x y,
        color := withAlpha (gradColor i) (gradAlpha i) }) ∧
    (∀ i j : ℕ, i ≤ j → ∀ x y : ℤ,
      inDisc center center (i : ℤ) x y → inDisc center center (j : ℤ) x y) ∧
    (∀ (cur : RGBA) (l : List Op) (x y : ℤ) (c : RGBA) (op : Op),
      runFrom cur l x y c → op.covers x y →
        runFrom cur (l ++ [op]) x y op.color) := by
  refine ⟨by decide, rfl, fun i => rfl, ?_,
    fun cur l x y c op h hc => runFrom_snoc_covers h hc⟩
  intro i j hij x y hin
  rw [inDisc] at hin ⊢
  have h1 : (i : ℤ) ≤ (j : ℤ) := by exact_mod_cast hij
  nlinarith [Int.natCast_nonneg i]

/-- Witness for `gradient_loop_structure`: the disc nesting applied at
`i = 1 ≤ j = 58` on the center pixel, and the overwrite property applied to
the empty prefix and `circleOp 1` at the center pixel. -/
theorem gradient_loop_structure_witness :
    inDisc center center ((58 : ℕ) : ℤ) 64 64 ∧
      runFrom (0, 0, 0, 0) ([] ++ [circleOp 1]) 64 64 (circleOp 1).color := by
  constructor
  · exact gradient_loop_structure.2.2.2.1 1 58 (by norm_num) 64 64
      (by rw [inDisc, center_eq]; norm_num)
  · exact gradient_loop_structure.2.2.2.2 (0, 0, 0, 0) [] 64 64 (0, 0, 0, 0)
      (circleOp 1) rfl
      (by simp only [circleOp]; rw [inDisc, center_eq]; norm_num)

/-- Claim C3, as stated, is false on the code: the bar widths in drawing
order are `32, 24, 28`, and that sequence is not decreasing (the second bar
is narrower than the third). -/
theorem bar_widths_not_decreasing :
    barWidths = [32, 24, 28] ∧
      ¬ List.Chain' (fun a b : ℤ => b ≤ a) barWidths := by
  have hw : barWidths = [32, 24, 28] := by decide
  refine ⟨hw, fun h => ?_⟩
  rw [hw, List.chain'_cons, List.chain'_cons] at h
  exact absurd h.2.1 (by decide)

/-- Claim C3 (amended): `create_icon` draws exactly three horizontal bars,
each 2 pixels tall, filled in the primary blue, stacked above the canvas
center line `y = 64`, with widths in drawing order `32, 24, 28` pixels (not
monotonically decreasing). -/
theorem bars_layout :
    barRects = [(48, 44, 80, 46), (48, 50, 72, 52), (48, 56, 76, 58)] ∧
    barWidths = [32, 24, 28] ∧ barHeights = [2, 2, 2] ∧
    barOps.map Op.color = [solid azure_blue, solid azure_blue, solid azure_blue] ∧
    ∀ r ∈ barRects, r.2.1 < 64 ∧ r.2.2.2 < 64 := by
  refine ⟨by decide, by decide, by decide, by decide, ?_⟩
  intro r hr
  simp only [barRects, List.mem_cons, List.not_mem_nil, or_false] at hr
  rcases hr with rfl | rfl | rfl <;> exact ⟨by decide, by decide⟩

/-- Witness for `bars_layout` at the first bar rectangle. -/
theorem bars_layout_witness :
    ((48 : ℤ), (44 : ℤ), (80 : ℤ), (46 : ℤ)).2.1 < 64 ∧
      ((48 : ℤ), (44 : ℤ), (80 : ℤ), (46 : ℤ)).2.2.2 < 64 :=
  bars_layout.2.2.2.2 (48, 44, 80, 46) (by decide)

/-- Claim C4: the six hexagon vertices are `hexPoint i` for `i = 0..5`,
computed at angle `i*60° - 90°` around `(hex_center_x, hex_center_y) =
(64, 59)` at radius 25, and the first vertex points straight up: it equals
`(64, 34)`, sharing the hexagon center's x-coordinate, with y-coordinate
`hex_center_y - 25`. -/
theorem hexagon_top_vertex :
    hex_points.length = 6 ∧
    hex_center_x = 64 ∧ hex_center_y = 59 ∧
    hexPoint 0 = ((64 : ℝ), (34 : ℝ)) ∧
    (hexPoint 0).1 = hex_center_x ∧ (hexPoint 0).2 = hex_center_y - 25 := by
  refine ⟨by simp [hex_points], hex_center_x_eq, hex_center_y_eq, hexPoint_0,
    ?_, ?_⟩
  · rw [hexPoint_0, hex_center_x_eq]
  · rw [hexPoint_0, hex_center_y_eq]; norm_num

/-- Claim C5: the four corner pixels of the rendered icon are fully
transparent `(0,0,0,0)` — indeed no drawing primitive of `create_icon`
covers any corner pixel. -/
theorem corners_fully_transparent :
    renderedAs 0 0 (0, 0, 0, 0) ∧ renderedAs 0 127 (0, 0, 0, 0) ∧
    renderedAs 127 0 (0, 0, 0, 0) ∧ renderedAs 127 127 (0, 0, 0, 0) ∧
    (∀ op ∈ drawOps, ¬ op.covers 0 0) ∧
    (∀ op ∈ drawOps, ¬ op.covers 0 127) ∧
    (∀ op ∈ drawOps, ¬ op.covers 127 0) ∧
    (∀ op ∈ drawOps, ¬ op.covers 127 127) :=
  ⟨corner_00_transparent, corner_0_127_transparent, corner_127_0_transparent,
    corner_127_127_transparent, drawOps_miss_00, drawOps_miss_0_127,
    drawOps_miss_127_0, drawOps_miss_127_127⟩

/-- Witness for `corners_fully_transparent`: the border op does not cover
the corner `(0, 0)`. -/
theorem corners_fully_transparent_witness : ¬ borderOp.covers 0 0 :=
  corners_fully_transparent.2.2.2.2.1 borderOp
    (List.mem_append.2 (Or.inr (List.mem_cons_self _ _)))

/-- Claim C6: `create_icon` is deterministic — at every pixel the render
relation is total and functional, so any two runs produce pixel-for-pixel
identical images (the embedding has no dependence on randomness, time or any
other input). -/
theorem renderer_deterministic :
    (∀ x y : ℤ, ∃ c : RGBA, renderedAs x y c) ∧
    (∀ (x y : ℤ) (c c' : RGBA),
      renderedAs x y c → renderedAs x y c' → c = c') :=
  ⟨fun x y => runFrom_total (newImage x y) drawOps x y,
    fun _ _ _ _ h h' => runFrom_unique h h'⟩

/-- Witness for `renderer_deterministic` at the corner pixel `(0, 0)`. -/
theorem renderer_deterministic_witness :
    ((0, 0, 0, 0) : RGBA) = (0, 0, 0, 0) :=
  renderer_deterministic.2 0 0 _ _ corner_00_transparent corner_00_transparent

/-- Claim C7: when the imaging library cannot be imported, the run writes no
file and prints exactly the fixed missing-dependency message with install
instructions followed by the fallback suggestion (no stack trace). -/
theorem import_error_behaviour :
    main false = importErrorRun ∧
    (main false).files = [] ∧
    (main false).console =
      ["❌ PIL (Pillow) not installed. Install with: pip install Pillow",
       "📝 Alternative: Open create-icon.html in a browser and click 'Download Icon'"] :=
  ⟨rfl, rfl, rfl⟩

/-- Claim C8: on a successful run the persisted artifact is `icon.png` in
PNG format; the canvas is created by `Image.new` with mode RGBA and
dimensions 128x128, fully transparent at every pixel before any drawing. -/
theorem success_run_artifacts :
    (main true).files = [("icon.png", "PNG")] ∧
    imageMode = "RGBA" ∧ imageSize = (128, 128) ∧
    ∀ x y : ℤ, newImage x y = (0, 0, 0, 0) :=
  ⟨rfl, rfl, rfl, fun _ _ => rfl⟩

set_option maxRecDepth 8000 in
/-- Claim C9: every coordinate passed to any drawing primitive of
`create_icon` lies within the canvas bounds `[0, 127]` in both components. -/
theorem coords_within_bounds :
    ∀ p ∈ allCoords, 0 ≤ p.1 ∧ p.1 ≤ 127 ∧ 0 ≤ p.2 ∧ p.2 ≤ 127 := by
  intro p hp
  rw [allCoords] at hp
  rcases List.mem_append.1 hp with hp | hp
  · obtain ⟨q, hq, rfl⟩ := List.mem_map.1 hp
    have hall : ∀ q ∈ intDrawCoords,
        0 ≤ q.1 ∧ q.1 ≤ 127 ∧ 0 ≤ q.2 ∧ q.2 ≤ 127 := by decide
    have hb := hall q hq
    simp only [toR]
    exact ⟨by exact_mod_cast hb.1, by exact_mod_cast hb.2.1,
      by exact_mod_cast hb.2.2.1, by exact_mod_cast hb.2.2.2⟩
  · rw [hex_points] at hp
    obtain ⟨i, hi, rfl⟩ := List.mem_map.1 hp
    rw [List.mem_range] at hi
    interval_cases i
    · rw [hexPoint_0]; norm_num
    · rw [hexPoint_1]
      exact ⟨by nlinarith [sqrt3_nonneg], by nlinarith [sqrt3_lt_two],
        by norm_num, by norm_num⟩
    · rw [hexPoint_2]
      exact ⟨by nlinarith [sqrt3_nonneg], by nlinarith [sqrt3_lt_two],
        by norm_num, by norm_num⟩
    · rw [hexPoint_3]; norm_num
    · rw [hexPoint_4]
      exact ⟨by nlinarith [sqrt3_lt_two], by nlinarith [sqrt3_nonneg],
        by norm_num, by norm_num⟩
    · rw [hexPoint_5]
      exact ⟨by nlinarith [sqrt3_lt_two], by nlinarith [sqrt3_nonneg],
        by norm_num, by norm_num⟩

set_option maxRecDepth 8000 in
/-- Witness for `coords_within_bounds` at the first bar's top-left corner
`(48, 44)`. -/
theorem coords_within_bounds_witness :
    0 ≤ (toR (48, 44)).1 ∧ (toR (48, 44)).1 ≤ 127 ∧
      0 ≤ (toR (48, 44)).2 ∧ (toR (48, 44)).2 ≤ 127 :=
  coords_within_bounds (toR (48, 44))
    (List.mem_append.2 (Or.inl (List.mem_map.2 ⟨(48, 44), by decide, rfl⟩)))

theorem pyInt_intCast (n : ℤ) : pyInt ((n : ℚ)) = n := by
  rw [pyInt]
  split
  · exact Int.floor_intCast n
  · rw [show -((n : ℚ)) = ((-n : ℤ) : ℚ) by push_cast; ring, Int.floor_intCast]
    simp

theorem interp_outer (b d : ℤ) : interp b d 58 = b := by
  have h : ((b : ℚ) + ((d : ℚ) - (b : ℚ)) * (1 - ((58 : ℕ) : ℚ) / (radius : ℚ)))
      = ((b : ℚ)) := by
    rw [show ((58 : ℕ) : ℚ) / (radius : ℚ) = 1 by norm_num [radius]]
    ring
  rw [interp, h, pyInt_intCast]

theorem gradColor_outer : gradColor 58 = azure_blue := by
  rw [gradColor, interp_outer, interp_outer, interp_outer]

theorem gradAlpha_outer : gradAlpha 58 = 255 := by
  have h : (255 : ℚ) * (((58 : ℕ) : ℚ) / (radius : ℚ)) = ((255 : ℤ) : ℚ) := by
    norm_num [radius]
  rw [gradAlpha, h, pyInt_intCast]

theorem gradAlpha_inner : gradAlpha 1 = 4 := by
  have h0 : (0 : ℚ) ≤ 255 * (((1 : ℕ) : ℚ) / (radius : ℚ)) := by
    norm_num [radius]
  rw [gradAlpha, pyInt_eq_floor h0,
    show (255 : ℚ) * (((1 : ℕ) : ℚ) / (radius : ℚ)) = 255 / 58 by
      norm_num [radius],
    Int.floor_eq_iff]
  norm_num

/-- Claim C10: the outermost gradient band `i = 58` is drawn exactly in
`azure_blue` with alpha 255, the innermost band `i = 1` has alpha
`int(255/58) = 4`, and the band alpha is monotone in the radius, so opacity
decreases toward the center of the disc. -/
theorem gradient_band_extremes :
    withAlpha (gradColor 58) (gradAlpha 58) = (0, 120, 212, 255) ∧
    gradAlpha 1 = 4 ∧
    (∀ i j : ℕ, i ≤ j → gradAlpha i ≤ gradAlpha j) := by
  refine ⟨?_, gradAlpha_inner, fun i j h => gradAlpha_mono h⟩
  rw [gradColor_outer, gradAlpha_outer]
  rfl

/-- Witness for `gradient_band_extremes`: monotonicity applied at
`1 ≤ 58`. -/
theorem gradient_band_extremes_witness : gradAlpha 1 ≤ gradAlpha 58 :=
  gradient_band_extremes.2.2 1 58 (by norm_num)

end GenerateIcon
